import Mathlib

/-!
Verification development for the tug-of-war mini-game in
`src/components/interactions/ScrollInteraction.tsx`.

The simulation is embedded shallowly: the React component's refs and state
hooks become fields of `GameState`; the event handlers, the round state
machine and the per-frame loop become pure functions on `GameState`.
Real-number quantities (rope offset, wall-clock times, forces) are modelled
as exact rationals `ℚ`.  Timers are modelled by recording the delay of the
scheduled phase-advancing timeout (`pendingDelayMs`) together with a
`timerFire` step that performs the scheduled action; this is faithful
because the component is single-threaded and, in each phase, at most one
queued timeout mutates game state.
-/

set_option autoImplicit false

/-- Game phases, from `type GamePhase` in the source. -/
inductive Phase where
  | instructions
  | countdown
  | playing
  | roundEnd
  | gameOver
deriving DecidableEq, Repr

/-- Round winners, from `type RoundWinner` in the source (`null` is modelled
by wrapping in `Option`). -/
inductive RoundWinner where
  | ai
  | user
  | draw
deriving DecidableEq, Repr

/-- Layout constants from the top of the source file. -/
def GOAL_LEFT_RATIO : ℚ := 268 / 1440

def GOAL_RIGHT_RATIO : ℚ := 1169 / 1440

def ROPE_LEFT_RATIO : ℚ := 500 / 1440

def ROPE_RIGHT_RATIO : ℚ := 940 / 1440

def ROPE_CENTER_Y_RATIO : ℚ := 520 / 1024

def MOBILE_ROPE_X_RATIO : ℚ := 196.5 / 393

def MOBILE_ROPE_TOP_RATIO : ℚ := 311.750244140625 / 852

def MOBILE_ROPE_BOTTOM_RATIO : ℚ := 559.9998779296875 / 852

def MOBILE_GOAL_TOP_CENTER_RATIO : ℚ := 156 / 852

def MOBILE_GOAL_BOTTOM_CENTER_RATIO : ℚ := 712 / 852

/-- `clamp(value, min, max)` from the source. -/
def clamp (value lo hi : ℚ) : ℚ :=
  min hi (max lo value)

/-- `baseAiForceForRound(round)` from the source. -/
def baseAiForceForRound (round : Nat) : ℚ :=
  if round = 1 then 0.3
  else if round = 2 then 0.5
  else 0.7

/-- Browser environment the component reads: layout flag and viewport size
(`isMobileLayout`, `window.innerWidth`, `window.innerHeight`). -/
structure Env where
  isMobileLayout : Bool
  innerWidth : ℚ
  innerHeight : ℚ
deriving DecidableEq, Repr

/-- The record returned by `getRopeMetrics` in the source. -/
structure RopeMetrics where
  isMobile : Bool
  ropeCenterX : ℚ
  ropeCenterY : ℚ
  ropeStart : ℚ
  ropeEnd : ℚ
  goalMin : ℚ
  goalMax : ℚ
  aiWinOffset : ℚ
  userWinOffset : ℚ
  normalized : ℚ
deriving DecidableEq, Repr

/-- `getRopeMetrics(ropeOffset)` from the source, both layout branches. -/
def getRopeMetrics (env : Env) (ropeOffset : ℚ) : RopeMetrics :=
  if env.isMobileLayout then
    let ropeBaseTop := env.innerHeight * MOBILE_ROPE_TOP_RATIO
    let ropeBaseBottom := env.innerHeight * MOBILE_ROPE_BOTTOM_RATIO
    let ropeCenterY := (ropeBaseTop + ropeBaseBottom) / 2
    let ropeHalfLength := (ropeBaseBottom - ropeBaseTop) / 2
    let ropeCenterX := env.innerWidth * MOBILE_ROPE_X_RATIO
    let goalTop := env.innerHeight * MOBILE_GOAL_TOP_CENTER_RATIO
    let goalBottom := env.innerHeight * MOBILE_GOAL_BOTTOM_CENTER_RATIO
    let ropeStart := ropeCenterY - ropeHalfLength + ropeOffset
    let ropeEnd := ropeCenterY + ropeHalfLength + ropeOffset
    let aiWinOffset := goalTop - (ropeCenterY - ropeHalfLength)
    let userWinOffset := goalBottom - (ropeCenterY + ropeHalfLength)
    let span := userWinOffset - aiWinOffset
    let normalized := if span = 0 then 0.5 else clamp ((ropeOffset - aiWinOffset) / span) 0 1
    { isMobile := true, ropeCenterX := ropeCenterX, ropeCenterY := ropeCenterY,
      ropeStart := ropeStart, ropeEnd := ropeEnd,
      goalMin := goalTop, goalMax := goalBottom,
      aiWinOffset := aiWinOffset, userWinOffset := userWinOffset,
      normalized := normalized }
  else
    let ropeBaseLeft := env.innerWidth * ROPE_LEFT_RATIO
    let ropeBaseRight := env.innerWidth * ROPE_RIGHT_RATIO
    let ropeCenterX := (ropeBaseLeft + ropeBaseRight) / 2
    let ropeHalfLength := (ropeBaseRight - ropeBaseLeft) / 2
    let ropeCenterY := env.innerHeight * ROPE_CENTER_Y_RATIO
    let goalLeft := env.innerWidth * GOAL_LEFT_RATIO
    let goalRight := env.innerWidth * GOAL_RIGHT_RATIO
    let ropeStart := ropeCenterX - ropeHalfLength + ropeOffset
    let ropeEnd := ropeCenterX + ropeHalfLength + ropeOffset
    let aiWinOffset := goalLeft - (ropeCenterX - ropeHalfLength)
    let userWinOffset := goalRight - (ropeCenterX + ropeHalfLength)
    let span := userWinOffset - aiWinOffset
    let normalized := if span = 0 then 0.5 else clamp ((ropeOffset - aiWinOffset) / span) 0 1
    { isMobile := false, ropeCenterX := ropeCenterX, ropeCenterY := ropeCenterY,
      ropeStart := ropeStart, ropeEnd := ropeEnd,
      goalMin := goalLeft, goalMax := goalRight,
      aiWinOffset := aiWinOffset, userWinOffset := userWinOffset,
      normalized := normalized }

/-- Half the rope's resting length, as derived in `getRopeMetrics`
(`ropeHalfLength` in both branches). -/
def ropeHalfLengthOf (env : Env) : ℚ :=
  if env.isMobileLayout then
    (env.innerHeight * MOBILE_ROPE_BOTTOM_RATIO - env.innerHeight * MOBILE_ROPE_TOP_RATIO) / 2
  else
    (env.innerWidth * ROPE_RIGHT_RATIO - env.innerWidth * ROPE_LEFT_RATIO) / 2

/-- The component's game-relevant mutable state: the React `useState` values
together with the refs that carry the simulation (`ropeOffsetRef`,
`isDraggingRef`, `dragLastXRef`, `currentDragXRef`, `aiForceRef`,
`elapsedTimeRef`, `lastFrameTsRef`, `roundResolvedRef`,
`onRevealCalledRef`).  The `*Ref` mirrors of `useState` values are merged
with them, since the component keeps them synchronized.
`onRevealCount` counts invocations of the `onReveal` prop, and
`pendingDelayMs` records the delay passed to the queued phase-advancing
`queueTimeout`. -/
structure GameState where
  phase : Phase
  roundNumber : Nat
  aiScore : Nat
  userScore : Nat
  roundWinner : Option RoundWinner
  ropeOffset : ℚ
  elapsedTime : ℚ
  aiForce : ℚ
  isDragging : Bool
  dragLastX : ℚ
  currentDragX : ℚ
  lastFrameTs : Option ℚ
  roundResolved : Bool
  onRevealCalled : Bool
  onRevealCount : Nat
  pendingDelayMs : ℚ
deriving DecidableEq, Repr

/-- The component's initial state (`useState` initializers and ref
initializers). -/
def initialState : GameState :=
  { phase := .instructions, roundNumber := 1, aiScore := 0, userScore := 0,
    roundWinner := none, ropeOffset := 0, elapsedTime := 0, aiForce := 0,
    isDragging := false, dragLastX := 0, currentDragX := 0,
    lastFrameTs := none, roundResolved := false,
    onRevealCalled := false, onRevealCount := 0, pendingDelayMs := 0 }

/-- `startGameOver(winner)`: enters `gameOver` and fires `onReveal` under
the `onRevealCalledRef` guard.  The `winner` argument only selects cosmetic
text in the source. -/
def startGameOver (winner : RoundWinner) (s : GameState) : GameState :=
  let s1 := { s with phase := Phase.gameOver }
  if s1.onRevealCalled then s1
  else { s1 with onRevealCalled := true, onRevealCount := s1.onRevealCount + 1 }

/-- `startCountdown(round)`: enters `countdown`, runs `resetRoundPhysics`
synchronously, sets `roundNumberRef`, and schedules the beat sequence whose
final step enters `playing` (outer 30ms timeout plus `4 * 800 + 400` ms). -/
def startCountdown (round : Nat) (s : GameState) : GameState :=
  { s with roundWinner := none, phase := Phase.countdown,
           ropeOffset := 0, elapsedTime := 0, aiForce := 0,
           isDragging := false, dragLastX := 0, currentDragX := 0,
           roundResolved := false, lastFrameTs := none,
           roundNumber := round,
           pendingDelayMs := 30 + (4 * 800 + 400) }

/-- The countdown's final queued step plus the `playing`-phase effect:
`setGamePhase('playing')`, reset of offset/elapsed/force/drag, and the
effect body that clears `roundResolvedRef`, `elapsedTimeRef` and
`lastFrameTsRef` on entering `playing`. -/
def countdownFinish (s : GameState) : GameState :=
  { s with phase := Phase.playing, roundWinner := none,
           ropeOffset := 0, elapsedTime := 0, aiForce := 0,
           isDragging := false, roundResolved := false, lastFrameTs := none }

/-- `endRound(winner)` from the source: guarded by the `resolved` latch,
snaps the rope to the winning goal, increments the winner's score (draws
change nothing), and queues the next transition (1000ms for a draw replay,
1500ms otherwise). -/
def endRound (env : Env) (winner : RoundWinner) (s : GameState) : GameState :=
  if s.roundResolved then s
  else
    let metrics := getRopeMetrics env s.ropeOffset
    let s1 : GameState :=
      { s with roundResolved := true, isDragging := false,
               roundWinner := some winner, phase := Phase.roundEnd }
    match winner with
    | .draw => { s1 with pendingDelayMs := 1000 }
    | .ai =>
        { s1 with ropeOffset := metrics.aiWinOffset,
                  aiScore := s1.aiScore + 1, pendingDelayMs := 1500 }
    | .user =>
        { s1 with ropeOffset := metrics.userWinOffset,
                  userScore := s1.userScore + 1, pendingDelayMs := 1500 }

/-- The closure queued by `endRound`: on a draw, replay the same round; on a
win, enter `gameOver` when a score reached 2, else advance to the next
round's countdown. -/
def roundEndTimerFire (s : GameState) : GameState :=
  match s.roundWinner with
  | some .draw => startCountdown s.roundNumber s
  | some .ai | some .user =>
      if 2 ≤ s.aiScore ∨ 2 ≤ s.userScore then
        startGameOver (if 2 ≤ s.aiScore then RoundWinner.ai else RoundWinner.user) s
      else
        startCountdown (s.roundNumber + 1) s
  | none => s

/-- Dispatch for the single game-state-mutating timeout pending in each
phase: the countdown's final step in `countdown`, the `endRound` closure in
`roundEnd`; elsewhere queued timeouts only touch cosmetics. -/
def timerFire (s : GameState) : GameState :=
  match s.phase with
  | .countdown => countdownFinish s
  | .roundEnd => roundEndTimerFire s
  | _ => s

/-- The opponent-force computation inside `loop`: base force for the round,
times the comeback multiplier (1.35 once the user has a round), times the
proximity multiplier (1.5 once `normalized ≥ 0.6`). -/
def scaledAiForce (round userScore : Nat) (normalized : ℚ) : ℚ :=
  let aiForce := baseAiForceForRound round
  let aiMultiplier : ℚ := if 1 ≤ userScore then 1.35 else 1
  let aiMultiplier := if (0.6 : ℚ) ≤ normalized then aiMultiplier * 1.5 else aiMultiplier
  aiForce * aiMultiplier

/-- The physics part of `loop(timestamp)`: the dt clamp, elapsed-time
accumulation, opponent-force computation at the pre-update offset, the drag
delta, and the opponent pull. -/
def integrateTick (env : Env) (timestamp : ℚ) (s : GameState) : GameState :=
  let dtMs : ℚ :=
    match s.lastFrameTs with
    | none => 16.667
    | some lastTs => min 50 (max 8 (timestamp - lastTs))
  let dtFrames := dtMs / (1000 / 60)
  let scaled := scaledAiForce s.roundNumber s.userScore (getRopeMetrics env s.ropeOffset).normalized
  let offsetAfterDrag :=
    if s.isDragging then s.ropeOffset + (s.currentDragX - s.dragLastX) * 0.15
    else s.ropeOffset
  { s with lastFrameTs := some timestamp,
           elapsedTime := s.elapsedTime + dtMs / 1000,
           aiForce := scaled,
           dragLastX := if s.isDragging then s.currentDragX else s.dragLastX,
           ropeOffset := offsetAfterDrag - scaled * dtFrames }

/-- The win/draw evaluation at the bottom of `loop`: AI wins when the rope
start reaches the near goal, the user wins when the rope start reaches the
rope-center threshold, draw at 12 elapsed seconds. -/
def resolveTick (env : Env) (s : GameState) : GameState :=
  let metrics := getRopeMetrics env s.ropeOffset
  let userWinThreshold := if metrics.isMobile then metrics.ropeCenterY else metrics.ropeCenterX
  if metrics.ropeStart ≤ metrics.goalMin then endRound env RoundWinner.ai s
  else if userWinThreshold ≤ metrics.ropeStart then endRound env RoundWinner.user s
  else if (12 : ℚ) ≤ s.elapsedTime then endRound env RoundWinner.draw s
  else s

/-- One iteration of `loop(timestamp)`: a no-op unless the phase is
`playing` (the guard at the top of `loop`), otherwise physics integration
followed by win/draw evaluation. -/
def loopTick (env : Env) (timestamp : ℚ) (s : GameState) : GameState :=
  if s.phase = Phase.playing then resolveTick env (integrateTick env timestamp s) else s

/-- `handlePointerDown`: in `instructions` it starts the countdown; in
`playing` it begins a drag session only when the pointer is in the user's
half of the viewport; in every other case it changes nothing. -/
def handlePointerDown (env : Env) (clientX clientY : ℚ) (s : GameState) : GameState :=
  if s.phase = Phase.instructions then startCountdown s.roundNumber s
  else if s.phase ≠ Phase.playing then s
  else if env.isMobileLayout then
    if clientY < env.innerHeight * 0.5 then s
    else { s with dragLastX := clientY, currentDragX := clientY, isDragging := true }
  else
    if clientX < env.innerWidth * 0.5 then s
    else { s with dragLastX := clientX, currentDragX := clientX, isDragging := true }

/-- `handlePointerMove`: updates the tracked pointer coordinate while a drag
session is active during `playing`. -/
def handlePointerMove (env : Env) (clientX clientY : ℚ) (s : GameState) : GameState :=
  if s.phase = Phase.playing ∧ s.isDragging then
    { s with currentDragX := if env.isMobileLayout then clientY else clientX }
  else s

/-- `handlePointerUp` / `handlePointerCancel`: ends the drag session during
`playing`. -/
def handlePointerUp (s : GameState) : GameState :=
  if s.phase = Phase.playing ∧ s.isDragging then { s with isDragging := false }
  else s

/-- The external events that drive the component. -/
inductive Event where
  | pointerDown (x y : ℚ)
  | pointerMove (x y : ℚ)
  | pointerUp
  | frame (timestamp : ℚ)
  | timer
deriving DecidableEq, Repr

/-- One step of the component under an event. -/
def step (env : Env) (e : Event) (s : GameState) : GameState :=
  match e with
  | .pointerDown x y => handlePointerDown env x y s
  | .pointerMove x y => handlePointerMove env x y s
  | .pointerUp => handlePointerUp s
  | .frame ts => loopTick env ts s
  | .timer => timerFire s

/-- Run a list of events under a fixed environment. -/
def run (env : Env) (es : List Event) (s : GameState) : GameState :=
  es.foldl (fun t e => step env e t) s

/-- States reachable from the initial state (the environment may change
between steps, covering resizes). -/
inductive Reachable : GameState → Prop where
  | init : Reachable initialState
  | next (env : Env) (e : Event) {s : GameState} :
      Reachable s → Reachable (step env e s)

/-- Inductive invariant of the match state machine: score bounds, the
`gameOver` score condition, and the `onReveal` accounting. -/
def MatchInv (s : GameState) : Prop :=
  s.aiScore ≤ 2 ∧ s.userScore ≤ 2 ∧
  (s.phase ≠ Phase.gameOver → s.phase ≠ Phase.roundEnd →
    s.aiScore ≤ 1 ∧ s.userScore ≤ 1) ∧
  (s.phase = Phase.gameOver → s.aiScore = 2 ∨ s.userScore = 2) ∧
  (s.phase = Phase.roundEnd → s.roundWinner ≠ none) ∧
  (s.phase = Phase.roundEnd → s.roundWinner = some RoundWinner.draw →
    s.aiScore ≤ 1 ∧ s.userScore ≤ 1) ∧
  (s.onRevealCount = if s.phase = Phase.gameOver then 1 else 0) ∧
  (s.onRevealCalled = true ↔ s.phase = Phase.gameOver)

/-- A desktop-sized environment (the reference 1440×1024 frame the layout
constants come from). -/
def desktopEnv : Env :=
  { isMobileLayout := false, innerWidth := 1440, innerHeight := 1024 }

/-- A mid-round `playing` state with the rope at the tied position. -/
def playState : GameState :=
  { initialState with phase := Phase.playing }

/-- A `playing` state with an active drag session and a previous frame
timestamp. -/
def dragState : GameState :=
  { initialState with phase := Phase.playing, isDragging := true,
                      dragLastX := 800, currentDragX := 900, lastFrameTs := some 0 }

/-- An already-resolved `roundEnd` state. -/
def latchedState : GameState :=
  { initialState with phase := Phase.roundEnd, roundWinner := some RoundWinner.ai,
                      aiScore := 1, roundResolved := true }

/-- A `playing` state whose next frame lands the rope between the
user-win threshold used by the loop (`ropeHalfLength`, 220 at width 1440)
and the user-side goal threshold (`userWinOffset`, 229 at width 1440). -/
def cexState : GameState :=
  { initialState with phase := Phase.playing, lastFrameTs := some 0,
                      ropeOffset := 226.35 }

/-- An event trace in which the user sweeps two rounds: instructions tap,
countdown, a winning drag per round, and the round-end timers. -/
def demoTrace : List Event :=
  [Event.pointerDown 800 500, Event.timer,
   Event.pointerDown 800 500, Event.pointerMove 3000 500, Event.frame 0,
   Event.timer, Event.timer,
   Event.pointerDown 800 500, Event.pointerMove 3000 500, Event.frame 1000,
   Event.timer]

/-! ### Basic projection lemmas -/

@[simp] lemma integrateTick_phase (env : Env) (ts : ℚ) (s : GameState) :
    (integrateTick env ts s).phase = s.phase := rfl

@[simp] lemma integrateTick_roundNumber (env : Env) (ts : ℚ) (s : GameState) :
    (integrateTick env ts s).roundNumber = s.roundNumber := rfl

@[simp] lemma integrateTick_aiScore (env : Env) (ts : ℚ) (s : GameState) :
    (integrateTick env ts s).aiScore = s.aiScore := rfl

@[simp] lemma integrateTick_userScore (env : Env) (ts : ℚ) (s : GameState) :
    (integrateTick env ts s).userScore = s.userScore := rfl

@[simp] lemma integrateTick_roundWinner (env : Env) (ts : ℚ) (s : GameState) :
    (integrateTick env ts s).roundWinner = s.roundWinner := rfl

@[simp] lemma integrateTick_roundResolved (env : Env) (ts : ℚ) (s : GameState) :
    (integrateTick env ts s).roundResolved = s.roundResolved := rfl

@[simp] lemma integrateTick_onRevealCalled (env : Env) (ts : ℚ) (s : GameState) :
    (integrateTick env ts s).onRevealCalled = s.onRevealCalled := rfl

@[simp] lemma integrateTick_onRevealCount (env : Env) (ts : ℚ) (s : GameState) :
    (integrateTick env ts s).onRevealCount = s.onRevealCount := rfl

lemma endRound_noop (env : Env) (w : RoundWinner) (s : GameState)
    (h : s.roundResolved = true) : endRound env w s = s := by
  simp [endRound, h]

lemma resolveTick_resolved (env : Env) (s : GameState)
    (h : s.roundResolved = true) : resolveTick env s = s := by
  unfold resolveTick
  split_ifs <;> simp [endRound_noop, h]

lemma endRound_roundResolved (env : Env) (w : RoundWinner) (s : GameState) :
    (endRound env w s).roundResolved = true := by
  by_cases h : s.roundResolved
  · simp [endRound, h]
  · simp only [Bool.not_eq_true] at h
    cases w <;> simp [endRound, h]

lemma endRound_phase (env : Env) (w : RoundWinner) (s : GameState) :
    (endRound env w s).phase = s.phase ∨ (endRound env w s).phase = Phase.roundEnd := by
  by_cases h : s.roundResolved
  · exact Or.inl (by simp [endRound, h])
  · simp only [Bool.not_eq_true] at h
    cases w <;> simp [endRound, h]

lemma getRopeMetrics_isMobile (env : Env) (off : ℚ) :
    (getRopeMetrics env off).isMobile = env.isMobileLayout := by
  cases h : env.isMobileLayout <;> simp [getRopeMetrics, h]

lemma ropeStart_le_goalMin_iff (env : Env) (off : ℚ) :
    ((getRopeMetrics env off).ropeStart ≤ (getRopeMetrics env off).goalMin) ↔
      off ≤ (getRopeMetrics env off).aiWinOffset := by
  cases h : env.isMobileLayout <;>
    simp only [getRopeMetrics, h, Bool.false_eq_true, if_false, if_true] <;>
    constructor <;> intro h2 <;> linarith

lemma center_le_ropeStart_iff (env : Env) (off : ℚ) :
    ((if (getRopeMetrics env off).isMobile then (getRopeMetrics env off).ropeCenterY
      else (getRopeMetrics env off).ropeCenterX) ≤ (getRopeMetrics env off).ropeStart) ↔
      ropeHalfLengthOf env ≤ off := by
  cases h : env.isMobileLayout <;>
    simp only [getRopeMetrics, ropeHalfLengthOf, h, Bool.false_eq_true, if_false, if_true] <;>
    constructor <;> intro h2 <;> linarith

/-- The loop's win/draw evaluation, re-expressed over the rope offset: the
AI-win check compares the offset with the AI-side goal threshold, while the
user-win check compares it with half the rope length (the rope's start end
crossing the rope center), not with `userWinOffset`. -/
lemma resolveTick_eq (env : Env) (s : GameState) :
    resolveTick env s =
      (if s.ropeOffset ≤ (getRopeMetrics env s.ropeOffset).aiWinOffset then
        endRound env RoundWinner.ai s
      else if ropeHalfLengthOf env ≤ s.ropeOffset then
        endRound env RoundWinner.user s
      else if (12 : ℚ) ≤ s.elapsedTime then
        endRound env RoundWinner.draw s
      else s) := by
  unfold resolveTick
  simp only [propext (ropeStart_le_goalMin_iff env s.ropeOffset),
             propext (center_le_ropeStart_iff env s.ropeOffset)]

/-! ### Claim theorems: geometry, opponent model, round latch -/

/-- Claim C9: for every layout, viewport size and rope offset the geometry
resolver returns a `normalized` progress inside `[0, 1]`, and when the goal
span is zero it returns exactly `0.5` rather than dividing by zero. -/
theorem normalized_progress_in_unit_and_degenerate (env : Env) (off : ℚ) :
    0 ≤ (getRopeMetrics env off).normalized ∧ (getRopeMetrics env off).normalized ≤ 1 ∧
    ((getRopeMetrics env off).userWinOffset - (getRopeMetrics env off).aiWinOffset = 0 →
      (getRopeMetrics env off).normalized = 0.5) := by
  cases h : env.isMobileLayout <;>
    simp only [getRopeMetrics, h, Bool.false_eq_true, if_false, if_true, clamp] <;>
    refine ⟨?_, ?_, ?_⟩ <;> try intro hs
  all_goals try split_ifs
  all_goals norm_num

/-- Claim C9 witness: a degenerate zero-sized viewport has goal span zero
and the resolver returns exactly `0.5`, inside `[0, 1]`. -/
theorem normalized_progress_in_unit_and_degenerate_witness :
    (0 : ℚ) ≤ (getRopeMetrics { isMobileLayout := false, innerWidth := 0, innerHeight := 0 } 7).normalized ∧
    (getRopeMetrics { isMobileLayout := false, innerWidth := 0, innerHeight := 0 } 7).normalized ≤ 1 ∧
    (getRopeMetrics { isMobileLayout := false, innerWidth := 0, innerHeight := 0 } 7).normalized = 0.5 := by
  have h := normalized_progress_in_unit_and_degenerate
    { isMobileLayout := false, innerWidth := 0, innerHeight := 0 } 7
  exact ⟨h.1, h.2.1, h.2.2 (by with_unfolding_all decide)⟩

/-- Claim C7: for fixed round and score, moving `normalized` past `0.6`
strictly increases the opponent force, and for fixed progress and round a
user score of at least 1 strictly increases it versus a score of 0. -/
theorem ai_force_strict_monotone (round u : Nat) (n1 n2 n : ℚ) :
    (n1 < 0.6 → (0.6 : ℚ) ≤ n2 → scaledAiForce round u n1 < scaledAiForce round u n2) ∧
    (1 ≤ u → scaledAiForce round 0 n < scaledAiForce round u n) := by
  have hbase : 0 < baseAiForceForRound round := by
    unfold baseAiForceForRound
    split_ifs <;> norm_num
  constructor
  · intro h1 h2
    simp only [scaledAiForce]
    rw [if_neg (by linarith : ¬ (0.6 : ℚ) ≤ n1), if_pos h2]
    split_ifs with hu <;> nlinarith
  · intro hu
    simp only [scaledAiForce]
    rw [if_neg (by omega : ¬ 1 ≤ (0 : Nat)), if_pos hu]
    split_ifs with hn <;> nlinarith

/-- Claim C7 witness: concrete instances of both strict monotonicity
statements in round 1. -/
theorem ai_force_strict_monotone_witness :
    scaledAiForce 1 1 0.5 < scaledAiForce 1 1 0.7 ∧
    scaledAiForce 1 0 0.5 < scaledAiForce 1 1 0.5 := by
  have h := ai_force_strict_monotone 1 1 0.5 0.7 0.5
  exact ⟨h.1 (by norm_num) (by norm_num), h.2 (by norm_num)⟩

/-- Claim C5: resolving a round as a draw changes neither score nor the
round number, queues a 1000 ms pause, and the queued step re-enters
`countdown` for the same round number. -/
theorem draw_preserves_scores_and_round (env : Env) (s : GameState)
    (hr : s.roundResolved = false) :
    (endRound env RoundWinner.draw s).aiScore = s.aiScore ∧
    (endRound env RoundWinner.draw s).userScore = s.userScore ∧
    (endRound env RoundWinner.draw s).roundNumber = s.roundNumber ∧
    (endRound env RoundWinner.draw s).phase = Phase.roundEnd ∧
    (endRound env RoundWinner.draw s).pendingDelayMs = 1000 ∧
    (timerFire (endRound env RoundWinner.draw s)).phase = Phase.countdown ∧
    (timerFire (endRound env RoundWinner.draw s)).roundNumber = s.roundNumber := by
  simp [endRound, hr, timerFire, roundEndTimerFire, startCountdown]

/-- Claim C5 witness: a draw from the tied `playing` state leaves scores at
0, keeps round 1, pauses 1000 ms, and replays round 1's countdown. -/
theorem draw_preserves_scores_and_round_witness :
    (endRound desktopEnv RoundWinner.draw playState).aiScore = playState.aiScore ∧
    (endRound desktopEnv RoundWinner.draw playState).userScore = playState.userScore ∧
    (endRound desktopEnv RoundWinner.draw playState).roundNumber = playState.roundNumber ∧
    (endRound desktopEnv RoundWinner.draw playState).phase = Phase.roundEnd ∧
    (endRound desktopEnv RoundWinner.draw playState).pendingDelayMs = 1000 ∧
    (timerFire (endRound desktopEnv RoundWinner.draw playState)).phase = Phase.countdown ∧
    (timerFire (endRound desktopEnv RoundWinner.draw playState)).roundNumber = playState.roundNumber :=
  draw_preserves_scores_and_round desktopEnv playState (by with_unfolding_all rfl)

/-- Claim C4: `endRound` latches `resolved`; once a round is resolved every
further `endRound` call is a strict no-op (any sequence of them included),
and a frame on a resolved round changes no score, phase, round number or
`onReveal` count. -/
theorem resolved_latch_no_reresolution (env : Env) (w : RoundWinner) (s : GameState) :
    (endRound env w s).roundResolved = true ∧
    (s.roundResolved = true → endRound env w s = s) ∧
    (s.roundResolved = true →
      ∀ ws : List RoundWinner, ws.foldl (fun t w2 => endRound env w2 t) s = s) ∧
    (s.roundResolved = true → ∀ ts : ℚ,
      (loopTick env ts s).aiScore = s.aiScore ∧
      (loopTick env ts s).userScore = s.userScore ∧
      (loopTick env ts s).phase = s.phase ∧
      (loopTick env ts s).roundNumber = s.roundNumber ∧
      (loopTick env ts s).onRevealCount = s.onRevealCount) := by
  refine ⟨endRound_roundResolved env w s, endRound_noop env w s, ?_, ?_⟩
  · intro h ws
    induction ws with
    | nil => rfl
    | cons w2 tl ih => simpa [endRound_noop env w2 s h] using ih
  · intro h ts
    by_cases hp : s.phase = Phase.playing
    · have hres : (integrateTick env ts s).roundResolved = true := by simpa using h
      simp [loopTick, hp, resolveTick_resolved env _ hres]
    · simp [loopTick, hp]

/-- Claim C4 witness: on an already-resolved round-end state, a repeated
`endRound` and a repeated pair of `endRound` calls are no-ops, and a frame
leaves score, phase, round and the `onReveal` count unchanged. -/
theorem resolved_latch_no_reresolution_witness :
    endRound desktopEnv RoundWinner.user latchedState = latchedState ∧
    ([RoundWinner.user, RoundWinner.ai].foldl
      (fun t w2 => endRound desktopEnv w2 t) latchedState = latchedState) ∧
    (loopTick desktopEnv 16 latchedState).aiScore = latchedState.aiScore ∧
    (loopTick desktopEnv 16 latchedState).userScore = latchedState.userScore ∧
    (loopTick desktopEnv 16 latchedState).phase = latchedState.phase := by
  have h := resolved_latch_no_reresolution desktopEnv RoundWinner.user latchedState
  have h4 := h.2.2.2 (by with_unfolding_all rfl) 16
  exact ⟨h.2.1 (by with_unfolding_all rfl),
         h.2.2.1 (by with_unfolding_all rfl) [RoundWinner.user, RoundWinner.ai],
         h4.1, h4.2.1, h4.2.2.1⟩

/-- Claim C10: a pointer-down begins a drag session exactly when the phase
is `playing` and the pointer is in the user's half of the viewport; in the
other half, or during `countdown`, `roundEnd` or `gameOver`, it changes
nothing; during `instructions` it starts the countdown. -/
theorem pointer_down_drag_gating (env : Env) (x y : ℚ) (s : GameState) :
    (s.phase = Phase.playing →
      ¬ (if env.isMobileLayout then y < env.innerHeight * 0.5 else x < env.innerWidth * 0.5) →
      handlePointerDown env x y s =
        { s with dragLastX := if env.isMobileLayout then y else x,
                 currentDragX := if env.isMobileLayout then y else x,
                 isDragging := true }) ∧
    (s.phase = Phase.playing →
      (if env.isMobileLayout then y < env.innerHeight * 0.5 else x < env.innerWidth * 0.5) →
      handlePointerDown env x y s = s) ∧
    ((s.phase = Phase.countdown ∨ s.phase = Phase.roundEnd ∨ s.phase = Phase.gameOver) →
      handlePointerDown env x y s = s) ∧
    (s.phase = Phase.instructions →
      handlePointerDown env x y s = startCountdown s.roundNumber s ∧
      (handlePointerDown env x y s).phase = Phase.countdown) := by
  refine ⟨?_, ?_, ?_, ?_⟩
  · intro hp hcond
    cases hm : env.isMobileLayout <;> rw [hm] at hcond <;>
      simp only [if_false, if_true, Bool.false_eq_true] at hcond <;>
      simp [handlePointerDown, hp, hm, hcond]
  · intro hp hcond
    cases hm : env.isMobileLayout <;> rw [hm] at hcond <;>
      simp only [if_false, if_true, Bool.false_eq_true] at hcond <;>
      simp [handlePointerDown, hp, hm, hcond]
  · intro hp
    rcases hp with hp | hp | hp <;> simp [handlePointerDown, hp]
  · intro hp
    constructor
    · simp [handlePointerDown, hp]
    · simp [handlePointerDown, hp, startCountdown]

/-- Claim C10 witness: on the desktop layout in `playing`, a pointer-down
at x = 800 (right half of a 1440-wide viewport) starts a drag and one at
x = 100 does not; in `roundEnd` a pointer-down changes nothing; in
`instructions` it starts the countdown. -/
theorem pointer_down_drag_gating_witness :
    handlePointerDown desktopEnv 800 500 playState =
      { playState with dragLastX := 800, currentDragX := 800, isDragging := true } ∧
    handlePointerDown desktopEnv 100 500 playState = playState ∧
    handlePointerDown desktopEnv 800 500 latchedState = latchedState ∧
    (handlePointerDown desktopEnv 800 500 initialState).phase = Phase.countdown := by
  refine ⟨?_, ?_, ?_, ?_⟩
  · have h := (pointer_down_drag_gating desktopEnv 800 500 playState).1
      (by with_unfolding_all rfl) (by with_unfolding_all decide)
    simpa [desktopEnv] using h
  · exact (pointer_down_drag_gating desktopEnv 100 500 playState).2.1
      (by with_unfolding_all rfl) (by with_unfolding_all decide)
  · exact (pointer_down_drag_gating desktopEnv 800 500 latchedState).2.2.1
      (Or.inr (Or.inl (by with_unfolding_all rfl)))
  · exact ((pointer_down_drag_gating desktopEnv 800 500 initialState).2.2.2
      (by with_unfolding_all rfl)).2

/-! ### Claim theorems: opponent force per tick, physics integration, round resolution -/

lemma endRound_aiForce (env : Env) (w : RoundWinner) (s : GameState) :
    (endRound env w s).aiForce = s.aiForce := by
  by_cases h : s.roundResolved
  · simp [endRound, h]
  · simp only [Bool.not_eq_true] at h
    cases w <;> simp [endRound, h]

lemma resolveTick_aiForce (env : Env) (s : GameState) :
    (resolveTick env s).aiForce = s.aiForce := by
  rw [resolveTick_eq]
  split_ifs <;> simp [endRound_aiForce]

lemma integrateTick_aiForce_eq (env : Env) (ts : ℚ) (s : GameState) :
    (integrateTick env ts s).aiForce =
      scaledAiForce s.roundNumber s.userScore (getRopeMetrics env s.ropeOffset).normalized := rfl

lemma scaledAiForce_formula (round u : Nat) (n : ℚ) :
    scaledAiForce round u n =
      baseAiForceForRound round *
        ((if 1 ≤ u then (1.35 : ℚ) else 1) * (if (0.6 : ℚ) ≤ n then (1.5 : ℚ) else 1)) := by
  simp only [scaledAiForce]
  split_ifs <;> ring

/-- Claim C6: on every `playing` tick the stored opponent force equals the
round's base force times the comeback multiplier (1.35 once the user has a
round) times the proximity multiplier (1.5 once the tick's current
`normalized` is at least 0.6), multiplicatively composed and recomputed
from the current state; and the base force strictly increases with the
round number. -/
theorem ai_force_formula_per_tick (env : Env) (ts : ℚ) (s : GameState)
    (hp : s.phase = Phase.playing) :
    (loopTick env ts s).aiForce =
      baseAiForceForRound s.roundNumber *
        ((if 1 ≤ s.userScore then (1.35 : ℚ) else 1) *
         (if (0.6 : ℚ) ≤ (getRopeMetrics env s.ropeOffset).normalized then (1.5 : ℚ) else 1)) ∧
    baseAiForceForRound 1 < baseAiForceForRound 2 ∧
    baseAiForceForRound 2 < baseAiForceForRound 3 := by
  refine ⟨?_, by norm_num [baseAiForceForRound], by norm_num [baseAiForceForRound]⟩
  rw [show loopTick env ts s = resolveTick env (integrateTick env ts s) by simp [loopTick, hp]]
  rw [resolveTick_aiForce, integrateTick_aiForce_eq, scaledAiForce_formula]

/-- Claim C6 witness: the force formula instantiated on a round-1 tick from
the tied `playing` state. -/
theorem ai_force_formula_per_tick_witness :
    (loopTick desktopEnv 7 playState).aiForce =
      baseAiForceForRound playState.roundNumber *
        ((if 1 ≤ playState.userScore then (1.35 : ℚ) else 1) *
         (if (0.6 : ℚ) ≤ (getRopeMetrics desktopEnv playState.ropeOffset).normalized then (1.5 : ℚ)
          else 1)) ∧
    baseAiForceForRound 1 < baseAiForceForRound 2 := by
  have h := ai_force_formula_per_tick desktopEnv 7 playState (by with_unfolding_all rfl)
  exact ⟨h.1, h.2.1⟩

/-- Claim C8: when a previous frame timestamp exists, the tick's dt is
`min 50 (max 8 (ts - t0))`, hence inside `[8, 50]`; the integrated offset
equals the old offset plus the drag delta times 0.15 (when dragging) minus
the scaled opponent force times `dtMs / (1000/60)`; and a `playing` tick is
exactly integration followed by win/draw evaluation. -/
theorem tick_dt_clamp_and_integration (env : Env) (ts t0 : ℚ) (s : GameState)
    (hp : s.phase = Phase.playing) (hlast : s.lastFrameTs = some t0) :
    (8 : ℚ) ≤ min 50 (max 8 (ts - t0)) ∧ min 50 (max 8 (ts - t0)) ≤ 50 ∧
    (integrateTick env ts s).ropeOffset =
      s.ropeOffset + (if s.isDragging then (s.currentDragX - s.dragLastX) * 0.15 else 0) -
        scaledAiForce s.roundNumber s.userScore (getRopeMetrics env s.ropeOffset).normalized *
          (min 50 (max 8 (ts - t0)) / (1000 / 60)) ∧
    loopTick env ts s = resolveTick env (integrateTick env ts s) := by
  refine ⟨le_min (by norm_num) (le_max_left _ _), min_le_left _ _, ?_, by simp [loopTick, hp]⟩
  simp only [integrateTick, hlast]
  split_ifs with hd <;> ring

/-- Claim C8 witness: the integration equation on a dragging tick 20 ms
after the previous frame. -/
theorem tick_dt_clamp_and_integration_witness :
    (8 : ℚ) ≤ min 50 (max 8 ((20 : ℚ) - 0)) ∧ min 50 (max 8 ((20 : ℚ) - 0)) ≤ 50 ∧
    (integrateTick desktopEnv 20 dragState).ropeOffset =
      dragState.ropeOffset +
        (if dragState.isDragging then (dragState.currentDragX - dragState.dragLastX) * 0.15
         else 0) -
        scaledAiForce dragState.roundNumber dragState.userScore
            (getRopeMetrics desktopEnv dragState.ropeOffset).normalized *
          (min 50 (max 8 ((20 : ℚ) - 0)) / (1000 / 60)) := by
  have h := tick_dt_clamp_and_integration desktopEnv 20 0 dragState
    (by with_unfolding_all rfl) (by with_unfolding_all rfl)
  exact ⟨h.1, h.2.1, h.2.2.1⟩

/-- Claim C1 (amended): during `playing`, after integrating a tick the
round resolves for the AI exactly when the offset has reached the AI-side
goal threshold `aiWinOffset`; it resolves for the user as soon as the
offset reaches `ropeHalfLength` (the rope's start end crossing the rope
center), which is a lower bar than the user-side goal threshold
`userWinOffset`; it resolves as a draw when 12 s have elapsed with neither
reached; and otherwise the tick does not resolve the round. -/
theorem round_resolution_amended (env : Env) (ts : ℚ) (s : GameState)
    (hp : s.phase = Phase.playing) :
    ((integrateTick env ts s).ropeOffset ≤
        (getRopeMetrics env (integrateTick env ts s).ropeOffset).aiWinOffset →
      loopTick env ts s = endRound env RoundWinner.ai (integrateTick env ts s)) ∧
    (¬ ((integrateTick env ts s).ropeOffset ≤
        (getRopeMetrics env (integrateTick env ts s).ropeOffset).aiWinOffset) →
      ropeHalfLengthOf env ≤ (integrateTick env ts s).ropeOffset →
      loopTick env ts s = endRound env RoundWinner.user (integrateTick env ts s)) ∧
    (¬ ((integrateTick env ts s).ropeOffset ≤
        (getRopeMetrics env (integrateTick env ts s).ropeOffset).aiWinOffset) →
      ¬ (ropeHalfLengthOf env ≤ (integrateTick env ts s).ropeOffset) →
      (12 : ℚ) ≤ (integrateTick env ts s).elapsedTime →
      loopTick env ts s = endRound env RoundWinner.draw (integrateTick env ts s)) ∧
    (¬ ((integrateTick env ts s).ropeOffset ≤
        (getRopeMetrics env (integrateTick env ts s).ropeOffset).aiWinOffset) →
      ¬ (ropeHalfLengthOf env ≤ (integrateTick env ts s).ropeOffset) →
      ¬ ((12 : ℚ) ≤ (integrateTick env ts s).elapsedTime) →
      loopTick env ts s = integrateTick env ts s) := by
  have hl : loopTick env ts s = resolveTick env (integrateTick env ts s) := by
    simp [loopTick, hp]
  rw [hl, resolveTick_eq]
  refine ⟨?_, ?_, ?_, ?_⟩
  · intro h1
    rw [if_pos h1]
  · intro h1 h2
    rw [if_neg h1, if_pos h2]
  · intro h1 h2 h3
    rw [if_neg h1, if_neg h2, if_pos h3]
  · intro h1 h2 h3
    rw [if_neg h1, if_neg h2, if_neg h3]

/-- Claim C1 witness: a mid-rope tick does not resolve the round, and the
tick that lands at offset 225 (past `ropeHalfLength = 220`) resolves for
the user. -/
theorem round_resolution_amended_witness :
    loopTick desktopEnv 7 playState = integrateTick desktopEnv 7 playState ∧
    loopTick desktopEnv 100 cexState =
      endRound desktopEnv RoundWinner.user (integrateTick desktopEnv 100 cexState) := by
  have h1 := round_resolution_amended desktopEnv 7 playState (by with_unfolding_all rfl)
  have h2 := round_resolution_amended desktopEnv 100 cexState (by with_unfolding_all rfl)
  exact ⟨h1.2.2.2 (by with_unfolding_all decide) (by with_unfolding_all decide)
           (by with_unfolding_all decide),
         h2.2.1 (by with_unfolding_all decide) (by with_unfolding_all decide)⟩

/-- Claim C1 counterexample: on a 1440×1024 desktop viewport, a round-1
tick lands the rope offset at 225, strictly between neither goal threshold
(`aiWinOffset = -232`, `userWinOffset = 229`) and well before the 12 s cap,
yet the loop resolves the round as a user win: the user-win check fires at
the rope-center crossing, before the offset reaches the user-side goal
threshold. -/
theorem round_resolution_claim_counterexample :
    cexState.phase = Phase.playing ∧
    ¬ ((integrateTick desktopEnv 100 cexState).ropeOffset ≤
        (getRopeMetrics desktopEnv (integrateTick desktopEnv 100 cexState).ropeOffset).aiWinOffset) ∧
    ¬ ((getRopeMetrics desktopEnv (integrateTick desktopEnv 100 cexState).ropeOffset).userWinOffset ≤
        (integrateTick desktopEnv 100 cexState).ropeOffset) ∧
    ¬ ((12 : ℚ) ≤ (integrateTick desktopEnv 100 cexState).elapsedTime) ∧
    (loopTick desktopEnv 100 cexState).phase = Phase.roundEnd ∧
    (loopTick desktopEnv 100 cexState).roundWinner = some RoundWinner.user ∧
    (loopTick desktopEnv 100 cexState).roundResolved = true := by
  with_unfolding_all decide

/-! ### Reachability invariant for the match state machine -/

lemma matchInv_initial : MatchInv initialState := by
  unfold MatchInv initialState
  norm_num
  decide

lemma matchInv_startCountdown (round : Nat) (s : GameState)
    (h1 : s.aiScore ≤ 1) (h2 : s.userScore ≤ 1)
    (h3 : s.onRevealCount = 0) (h4 : s.onRevealCalled = false) :
    MatchInv (startCountdown round s) := by
  unfold MatchInv startCountdown
  simp [h3, h4]
  omega

lemma matchInv_countdownFinish (s : GameState) (h : MatchInv s)
    (hp : s.phase = Phase.countdown) : MatchInv (countdownFinish s) := by
  obtain ⟨i1, i2, i3, i4, i5, i6, i7, i8⟩ := h
  have hs := i3 (by simp [hp]) (by simp [hp])
  unfold MatchInv countdownFinish
  simp [hp] at i7 i8 ⊢
  exact ⟨by omega, by omega, ⟨hs.1, hs.2⟩, i7, i8⟩

lemma matchInv_startGameOver (w : RoundWinner) (s : GameState)
    (hai : s.aiScore ≤ 2) (hus : s.userScore ≤ 2)
    (h2 : s.aiScore = 2 ∨ s.userScore = 2)
    (hcount : s.onRevealCount = 0) (hcalled : s.onRevealCalled = false) :
    MatchInv (startGameOver w s) := by
  unfold MatchInv startGameOver
  simp [hcalled, hcount]
  exact ⟨hai, hus, h2⟩

lemma matchInv_endRound (env : Env) (w : RoundWinner) (s : GameState)
    (h : MatchInv s) (hp : s.phase = Phase.playing) :
    MatchInv (endRound env w s) := by
  by_cases hr : s.roundResolved
  · rwa [endRound_noop env w s hr]
  · simp only [Bool.not_eq_true] at hr
    obtain ⟨i1, i2, i3, i4, i5, i6, i7, i8⟩ := h
    have hs := i3 (by simp [hp]) (by simp [hp])
    simp [hp] at i7 i8
    cases w <;> unfold MatchInv <;> simp [endRound, hr, i7, i8] <;> omega

lemma matchInv_integrateTick (env : Env) (ts : ℚ) (s : GameState)
    (h : MatchInv s) : MatchInv (integrateTick env ts s) := by
  obtain ⟨i1, i2, i3, i4, i5, i6, i7, i8⟩ := h
  exact ⟨by simpa using i1, by simpa using i2, by simpa using i3, by simpa using i4,
         by simpa using i5, by simpa using i6, by simpa using i7, by simpa using i8⟩

lemma matchInv_loopTick (env : Env) (ts : ℚ) (s : GameState)
    (h : MatchInv s) : MatchInv (loopTick env ts s) := by
  by_cases hp : s.phase = Phase.playing
  · rw [show loopTick env ts s = resolveTick env (integrateTick env ts s) by
      simp [loopTick, hp]]
    have h1 := matchInv_integrateTick env ts s h
    have hp1 : (integrateTick env ts s).phase = Phase.playing := by simpa using hp
    rw [resolveTick_eq]
    split_ifs <;> first
      | exact matchInv_endRound env _ _ h1 hp1
      | exact h1
  · simpa [loopTick, hp] using h

lemma startGameOver_phase (w : RoundWinner) (s : GameState) :
    (startGameOver w s).phase = Phase.gameOver := by
  by_cases h : s.onRevealCalled <;> simp [startGameOver, h]

lemma matchInv_timerFire (s : GameState) (h : MatchInv s) : MatchInv (timerFire s) := by
  obtain ⟨i1, i2, i3, i4, i5, i6, i7, i8⟩ := h
  cases hph : s.phase with
  | countdown =>
      rw [show timerFire s = countdownFinish s by simp [timerFire, hph]]
      exact matchInv_countdownFinish s ⟨i1, i2, i3, i4, i5, i6, i7, i8⟩ hph
  | roundEnd =>
      rw [show timerFire s = roundEndTimerFire s by simp [timerFire, hph]]
      have hcount : s.onRevealCount = 0 := by simpa [hph] using i7
      have hcalled : s.onRevealCalled = false := by
        simpa [hph, Bool.not_eq_true] using i8
      cases hw : s.roundWinner with
      | none => exact absurd hw (i5 hph)
      | some w =>
        cases w with
        | draw =>
            have hs := i6 hph hw
            rw [show roundEndTimerFire s = startCountdown s.roundNumber s by
              simp [roundEndTimerFire, hw]]
            exact matchInv_startCountdown _ _ hs.1 hs.2 hcount hcalled
        | ai =>
            rw [show roundEndTimerFire s =
                (if 2 ≤ s.aiScore ∨ 2 ≤ s.userScore then
                  startGameOver (if 2 ≤ s.aiScore then RoundWinner.ai else RoundWinner.user) s
                else startCountdown (s.roundNumber + 1) s) by simp [roundEndTimerFire, hw]]
            by_cases hge : 2 ≤ s.aiScore ∨ 2 ≤ s.userScore
            · rw [if_pos hge]
              exact matchInv_startGameOver _ s i1 i2 (by omega) hcount hcalled
            · rw [if_neg hge]
              exact matchInv_startCountdown _ s (by omega) (by omega) hcount hcalled
        | user =>
            rw [show roundEndTimerFire s =
                (if 2 ≤ s.aiScore ∨ 2 ≤ s.userScore then
                  startGameOver (if 2 ≤ s.aiScore then RoundWinner.ai else RoundWinner.user) s
                else startCountdown (s.roundNumber + 1) s) by simp [roundEndTimerFire, hw]]
            by_cases hge : 2 ≤ s.aiScore ∨ 2 ≤ s.userScore
            · rw [if_pos hge]
              exact matchInv_startGameOver _ s i1 i2 (by omega) hcount hcalled
            · rw [if_neg hge]
              exact matchInv_startCountdown _ s (by omega) (by omega) hcount hcalled
  | instructions =>
      rw [show timerFire s = s by simp [timerFire, hph]]
      exact ⟨i1, i2, i3, i4, i5, i6, i7, i8⟩
  | playing =>
      rw [show timerFire s = s by simp [timerFire, hph]]
      exact ⟨i1, i2, i3, i4, i5, i6, i7, i8⟩
  | gameOver =>
      rw [show timerFire s = s by simp [timerFire, hph]]
      exact ⟨i1, i2, i3, i4, i5, i6, i7, i8⟩

lemma matchInv_handlePointerDown (env : Env) (x y : ℚ) (s : GameState)
    (h : MatchInv s) : MatchInv (handlePointerDown env x y s) := by
  obtain ⟨i1, i2, i3, i4, i5, i6, i7, i8⟩ := h
  by_cases hi : s.phase = Phase.instructions
  · rw [show handlePointerDown env x y s = startCountdown s.roundNumber s by
      simp [handlePointerDown, hi]]
    have hs := i3 (by simp [hi]) (by simp [hi])
    exact matchInv_startCountdown _ _ hs.1 hs.2 (by simpa [hi] using i7)
      (by simpa [hi, Bool.not_eq_true] using i8)
  · by_cases hp : s.phase = Phase.playing
    · unfold handlePointerDown
      rw [if_neg hi, if_neg (by simp [hp])]
      split_ifs <;>
        exact ⟨by simpa using i1, by simpa using i2, by simpa using i3, by simpa using i4,
               by simpa using i5, by simpa using i6, by simpa using i7, by simpa using i8⟩
    · rw [show handlePointerDown env x y s = s by simp [handlePointerDown, hi, hp]]
      exact ⟨i1, i2, i3, i4, i5, i6, i7, i8⟩

lemma matchInv_handlePointerMove (env : Env) (x y : ℚ) (s : GameState)
    (h : MatchInv s) : MatchInv (handlePointerMove env x y s) := by
  obtain ⟨i1, i2, i3, i4, i5, i6, i7, i8⟩ := h
  unfold handlePointerMove
  split_ifs <;>
    exact ⟨by simpa using i1, by simpa using i2, by simpa using i3, by simpa using i4,
           by simpa using i5, by simpa using i6, by simpa using i7, by simpa using i8⟩

lemma matchInv_handlePointerUp (s : GameState) (h : MatchInv s) :
    MatchInv (handlePointerUp s) := by
  obtain ⟨i1, i2, i3, i4, i5, i6, i7, i8⟩ := h
  unfold handlePointerUp
  split_ifs <;>
    exact ⟨by simpa using i1, by simpa using i2, by simpa using i3, by simpa using i4,
           by simpa using i5, by simpa using i6, by simpa using i7, by simpa using i8⟩

lemma matchInv_step (env : Env) (e : Event) (s : GameState) (h : MatchInv s) :
    MatchInv (step env e s) := by
  cases e with
  | pointerDown x y => exact matchInv_handlePointerDown env x y s h
  | pointerMove x y => exact matchInv_handlePointerMove env x y s h
  | pointerUp => exact matchInv_handlePointerUp s h
  | frame ts => exact matchInv_loopTick env ts s h
  | timer => exact matchInv_timerFire s h

lemma matchInv_reachable (s : GameState) (h : Reachable s) : MatchInv s := by
  induction h with
  | init => exact matchInv_initial
  | next env e hr ih => exact matchInv_step env e _ ih

lemma startCountdown_phase (round : Nat) (s : GameState) :
    (startCountdown round s).phase = Phase.countdown := rfl

lemma countdownFinish_phase (s : GameState) :
    (countdownFinish s).phase = Phase.playing := rfl

lemma handlePointerDown_phase (env : Env) (x y : ℚ) (s : GameState) :
    (handlePointerDown env x y s).phase = s.phase ∨
      (handlePointerDown env x y s).phase = Phase.countdown := by
  unfold handlePointerDown
  split_ifs <;> simp [startCountdown]

lemma handlePointerMove_phase (env : Env) (x y : ℚ) (s : GameState) :
    (handlePointerMove env x y s).phase = s.phase := by
  unfold handlePointerMove
  split_ifs <;> rfl

lemma handlePointerUp_phase (s : GameState) :
    (handlePointerUp s).phase = s.phase := by
  unfold handlePointerUp
  split_ifs <;> rfl

lemma loopTick_phase (env : Env) (ts : ℚ) (s : GameState) :
    (loopTick env ts s).phase = s.phase ∨ (loopTick env ts s).phase = Phase.roundEnd := by
  by_cases hp : s.phase = Phase.playing
  · rw [show loopTick env ts s = resolveTick env (integrateTick env ts s) by
      simp [loopTick, hp]]
    rw [resolveTick_eq]
    split_ifs
    · rcases endRound_phase env RoundWinner.ai (integrateTick env ts s) with h | h <;> simp [h]
    · rcases endRound_phase env RoundWinner.user (integrateTick env ts s) with h | h <;> simp [h]
    · rcases endRound_phase env RoundWinner.draw (integrateTick env ts s) with h | h <;> simp [h]
    · simp
  · simp [loopTick, hp]

lemma reachable_run (env : Env) (es : List Event) (s : GameState) (h : Reachable s) :
    Reachable (run env es s) := by
  induction es generalizing s with
  | nil => exact h
  | cons e tl ih => exact ih _ (Reachable.next env e h)

/-- Claim C2: in every reachable state the `onReveal` callback has fired at
most once; it has fired exactly once whenever the phase is `gameOver`
(however the match was won), and never before `gameOver` is entered. -/
theorem onReveal_fires_exactly_once (s : GameState) (h : Reachable s) :
    s.onRevealCount ≤ 1 ∧
    (s.phase = Phase.gameOver → s.onRevealCount = 1 ∧ s.onRevealCalled = true) ∧
    (s.phase ≠ Phase.gameOver → s.onRevealCount = 0) := by
  obtain ⟨i1, i2, i3, i4, i5, i6, i7, i8⟩ := matchInv_reachable s h
  refine ⟨?_, ?_, ?_⟩
  · rw [i7]
    split_ifs <;> omega
  · intro hg
    exact ⟨by simpa [hg] using i7, i8.mpr hg⟩
  · intro hg
    rw [i7, if_neg hg]

/-- Claim C3: in every reachable state both scores are at most 2; in
`gameOver` one of them equals 2; any step that enters `gameOver` does so
from a state where one score equals 2; and from any non-`gameOver` state
where a score equals 2, the pending round-end timer enters `gameOver`. -/
theorem score_bound_gameOver_iff (s : GameState) (h : Reachable s) :
    s.aiScore ≤ 2 ∧ s.userScore ≤ 2 ∧
    (s.phase = Phase.gameOver → s.aiScore = 2 ∨ s.userScore = 2) ∧
    (∀ env e, s.phase ≠ Phase.gameOver → (step env e s).phase = Phase.gameOver →
      s.aiScore = 2 ∨ s.userScore = 2) ∧
    (s.phase ≠ Phase.gameOver → (s.aiScore = 2 ∨ s.userScore = 2) →
      (timerFire s).phase = Phase.gameOver) := by
  obtain ⟨i1, i2, i3, i4, i5, i6, i7, i8⟩ := matchInv_reachable s h
  refine ⟨i1, i2, i4, ?_, ?_⟩
  · intro env e hng hgo
    cases e with
    | pointerDown x y =>
        simp only [step] at hgo
        rcases handlePointerDown_phase env x y s with hp | hp <;> rw [hp] at hgo
        · exact absurd hgo hng
        · exact absurd hgo (by simp)
    | pointerMove x y =>
        simp only [step] at hgo
        rw [handlePointerMove_phase env x y s] at hgo
        exact absurd hgo hng
    | pointerUp =>
        simp only [step] at hgo
        rw [handlePointerUp_phase s] at hgo
        exact absurd hgo hng
    | frame ts =>
        simp only [step] at hgo
        rcases loopTick_phase env ts s with hp | hp <;> rw [hp] at hgo
        · exact absurd hgo hng
        · exact absurd hgo (by simp)
    | timer =>
        cases hph : s.phase with
        | countdown =>
            rw [show step env Event.timer s = countdownFinish s by simp [step, timerFire, hph],
              countdownFinish_phase] at hgo
            exact absurd hgo (by simp)
        | roundEnd =>
            rw [show step env Event.timer s = roundEndTimerFire s by
              simp [step, timerFire, hph]] at hgo
            cases hw : s.roundWinner with
            | none =>
                rw [show roundEndTimerFire s = s by simp [roundEndTimerFire, hw]] at hgo
                exact absurd hgo hng
            | some w =>
              cases w with
              | draw =>
                  rw [show roundEndTimerFire s = startCountdown s.roundNumber s by
                    simp [roundEndTimerFire, hw], startCountdown_phase] at hgo
                  exact absurd hgo (by simp)
              | ai =>
                  rw [show roundEndTimerFire s =
                      (if 2 ≤ s.aiScore ∨ 2 ≤ s.userScore then
                        startGameOver (if 2 ≤ s.aiScore then RoundWinner.ai
                          else RoundWinner.user) s
                      else startCountdown (s.roundNumber + 1) s) by
                    simp [roundEndTimerFire, hw]] at hgo
                  by_cases hge : 2 ≤ s.aiScore ∨ 2 ≤ s.userScore
                  · omega
                  · rw [if_neg hge, startCountdown_phase] at hgo
                    exact absurd hgo (by simp)
              | user =>
                  rw [show roundEndTimerFire s =
                      (if 2 ≤ s.aiScore ∨ 2 ≤ s.userScore then
                        startGameOver (if 2 ≤ s.aiScore then RoundWinner.ai
                          else RoundWinner.user) s
                      else startCountdown (s.roundNumber + 1) s) by
                    simp [roundEndTimerFire, hw]] at hgo
                  by_cases hge : 2 ≤ s.aiScore ∨ 2 ≤ s.userScore
                  · omega
                  · rw [if_neg hge, startCountdown_phase] at hgo
                    exact absurd hgo (by simp)
        | instructions =>
            rw [show step env Event.timer s = s by simp [step, timerFire, hph]] at hgo
            exact absurd hgo hng
        | playing =>
            rw [show step env Event.timer s = s by simp [step, timerFire, hph]] at hgo
            exact absurd hgo hng
        | gameOver => exact absurd hph hng
  · intro hng h2
    by_cases hre : s.phase = Phase.roundEnd
    · have hw := i5 hre
      cases hwv : s.roundWinner with
      | none => exact absurd hwv hw
      | some w =>
        have hge : 2 ≤ s.aiScore ∨ 2 ≤ s.userScore := by omega
        cases w with
        | draw =>
            have := i6 hre hwv
            omega
        | ai =>
            rw [show timerFire s = roundEndTimerFire s by simp [timerFire, hre],
              show roundEndTimerFire s =
                startGameOver (if 2 ≤ s.aiScore then RoundWinner.ai else RoundWinner.user) s by
              simp [roundEndTimerFire, hwv, if_pos hge]]
            exact startGameOver_phase _ s
        | user =>
            rw [show timerFire s = roundEndTimerFire s by simp [timerFire, hre],
              show roundEndTimerFire s =
                startGameOver (if 2 ≤ s.aiScore then RoundWinner.ai else RoundWinner.user) s by
              simp [roundEndTimerFire, hwv, if_pos hge]]
            exact startGameOver_phase _ s
    · have := i3 hng hre
      omega

/-- Claim C2 witness: running the two-round sweep trace reaches `gameOver`
with the callback fired exactly once. -/
theorem onReveal_fires_exactly_once_witness :
    (run desktopEnv demoTrace initialState).onRevealCount ≤ 1 ∧
    (run desktopEnv demoTrace initialState).onRevealCount = 1 ∧
    (run desktopEnv demoTrace initialState).onRevealCalled = true := by
  have h := onReveal_fires_exactly_once (run desktopEnv demoTrace initialState)
    (reachable_run desktopEnv demoTrace initialState Reachable.init)
  have hg := h.2.1 (by with_unfolding_all rfl)
  exact ⟨h.1, hg.1, hg.2⟩

/-- Claim C3 witness: the two-round sweep trace ends in `gameOver` with the
user score exactly 2 and both scores within bound. -/
theorem score_bound_gameOver_iff_witness :
    (run desktopEnv demoTrace initialState).aiScore ≤ 2 ∧
    (run desktopEnv demoTrace initialState).userScore ≤ 2 ∧
    ((run desktopEnv demoTrace initialState).aiScore = 2 ∨
      (run desktopEnv demoTrace initialState).userScore = 2) := by
  have h := score_bound_gameOver_iff (run desktopEnv demoTrace initialState)
    (reachable_run desktopEnv demoTrace initialState Reachable.init)
  exact ⟨h.1, h.2.1, h.2.2.1 (by with_unfolding_all rfl)⟩
